import Mathlib

/-!
Verification of the WhisperChain on-chain program (src/program/src).

The development shallowly embeds the program's state records (`Chat`,
`Message`, src/program/src/state.rs), the borsh binary codec they derive,
and the four instruction handlers of `Processor`
(src/program/src/processor.rs).  Account storage is a list of byte values,
u64 fields are `Nat` (with explicit `% 2^64` where the machine arithmetic
wraps), i64 fields are `Int` (encoded in two's complement), and every
fallible step returns through `Option`.  Host primitives that are not part
of the repository (program-derived-address lookup, rent, the system
program's create_account) are modelled from the spec's boundary contract
and are explicit parameters or flagged definitions.
-/

/-- A 32-byte account identifier (`solana_program::pubkey::Pubkey`, and the
`[u8; 32]` key material fields): a list of byte values of length 32. -/
def Key : Type := {bs : List Nat // bs.length = 32}

instance : DecidableEq Key :=
  inferInstanceAs (DecidableEq {bs : List Nat // bs.length = 32})

/-- `Pubkey::default()`: the all-zero identifier. -/
def zeroKey : Key := ⟨List.replicate 32 0, List.length_replicate 32 0⟩

/-! ### Little-endian byte encoding of machine integers (borsh) -/

/-- `k`-byte little-endian encoding of a natural number (borsh u64/u32). -/
def natToLE : Nat → Nat → List Nat
  | 0, _ => []
  | k + 1, n => n % 256 :: natToLE k (n / 256)

/-- Read a little-endian byte list back as a natural number. -/
def leToNat : List Nat → Nat
  | [] => 0
  | b :: bs => b + 256 * leToNat bs

theorem natToLE_length (k n : Nat) : (natToLE k n).length = k := by
  induction k generalizing n with
  | zero => rfl
  | succ k ih => simp [natToLE, ih]

theorem leToNat_natToLE (k n : Nat) : leToNat (natToLE k n) = n % 256 ^ k := by
  induction k generalizing n with
  | zero => simp [natToLE, leToNat, Nat.mod_one]
  | succ k ih =>
    have h : 256 ^ (k + 1) = 256 * 256 ^ k := by ring
    rw [natToLE, leToNat, ih, h, Nat.mod_mul]

theorem leToNat_replicate_zero (k : Nat) : leToNat (List.replicate k 0) = 0 := by
  induction k with
  | zero => rfl
  | succ k ih => simp [List.replicate, leToNat, ih]

/-- Two's-complement interpretation of an 8-byte little-endian value. -/
def leToInt64 (bs : List Nat) : Int :=
  if leToNat bs < 2 ^ 63 then (leToNat bs : Int) else (leToNat bs : Int) - 2 ^ 64

/-- 8-byte little-endian two's-complement encoding of an i64 value. -/
def intToLE64 (i : Int) : List Nat := natToLE 8 (i % 2 ^ 64).toNat

theorem leToInt64_intToLE64 (i : Int) (h1 : -(2 ^ 63) ≤ i) (h2 : i < 2 ^ 63) :
    leToInt64 (intToLE64 i) = i := by
  have hnn : (0 : Int) ≤ i % 2 ^ 64 := Int.emod_nonneg i (by norm_num)
  have hlt : i % 2 ^ 64 < 2 ^ 64 := Int.emod_lt_of_pos i (by norm_num)
  have hn : leToNat (natToLE 8 (i % 2 ^ 64).toNat) = (i % 2 ^ 64).toNat := by
    rw [leToNat_natToLE]
    exact Nat.mod_eq_of_lt (by omega)
  rw [intToLE64, leToInt64, hn]
  split <;> omega

/-! ### Borsh field serializers (fixed order, little endian) -/

def serBool (b : Bool) : List Nat := [if b then 1 else 0]

def serKey (k : Key) : List Nat := k.val

def serU64 (n : Nat) : List Nat := natToLE 8 n

def serI64 (i : Int) : List Nat := intToLE64 i

/-- borsh `Vec<u8>`: 4-byte little-endian length prefix, then the bytes. -/
def serVec (d : List Nat) : List Nat := natToLE 4 d.length ++ d

/-! ### Borsh field readers: `Option (value × remaining bytes)` -/

def readBool : List Nat → Option (Bool × List Nat)
  | [] => none
  | b :: bs => if b = 0 then some (false, bs) else if b = 1 then some (true, bs) else none

def readKey (bs : List Nat) : Option (Key × List Nat) :=
  if h : 32 ≤ bs.length then
    some (⟨bs.take 32, by rw [List.length_take]; exact Nat.min_eq_left h⟩, bs.drop 32)
  else none

def readU64 (bs : List Nat) : Option (Nat × List Nat) :=
  if 8 ≤ bs.length then some (leToNat (bs.take 8), bs.drop 8) else none

def readI64 (bs : List Nat) : Option (Int × List Nat) :=
  if 8 ≤ bs.length then some (leToInt64 (bs.take 8), bs.drop 8) else none

def readVec (bs : List Nat) : Option (List Nat × List Nat) :=
  if 4 ≤ bs.length then
    if leToNat (bs.take 4) ≤ (bs.drop 4).length then
      some ((bs.drop 4).take (leToNat (bs.take 4)), (bs.drop 4).drop (leToNat (bs.take 4)))
    else none
  else none

/-! ### The account records (src/program/src/state.rs) -/

/-- `MAX_MESSAGE_SIZE`: maximum size for encrypted message data. -/
def MAX_MESSAGE_SIZE : Nat := 512

/-- Chat account state (src/program/src/state.rs). -/
structure Chat where
  is_initialized : Bool
  participant1 : Key
  participant2 : Key
  participant1_public_key : Key
  participant2_public_key : Key
  created_at : Int
  message_count : Nat
  last_message_at : Int
deriving DecidableEq

/-- `Chat::LEN`: the byte length of a serialized Chat record. -/
def Chat.LEN : Nat := 1 + 32 + 32 + 32 + 32 + 8 + 8 + 8

/-- `Chat::is_participant`. -/
def Chat.is_participant (c : Chat) (pubkey : Key) : Bool :=
  decide (c.participant1 = pubkey) || decide (c.participant2 = pubkey)

/-- Message account state (src/program/src/state.rs). -/
structure Message where
  is_initialized : Bool
  chat : Key
  sender : Key
  index : Nat
  timestamp : Int
  expires_at : Int
  ephemeral_public_key : Key
  encrypted_data : List Nat
deriving DecidableEq

/-- `Message::space`: the space needed for a message with a given data size
(the vec has a 4 byte length prefix). -/
def Message.space (data_size : Nat) : Nat :=
  1 + 32 + 32 + 8 + 8 + 8 + 32 + (4 + data_size)

/-- `Message::is_expired`. -/
def Message.is_expired (m : Message) (current_timestamp : Int) : Bool :=
  decide (m.expires_at > 0) && decide (current_timestamp ≥ m.expires_at)

/-! ### Record codec (derived `BorshSerialize` / `BorshDeserialize`) -/

/-- Borsh serialization of a Chat record: fields in declaration order. -/
def chatSerialize (c : Chat) : List Nat :=
  serBool c.is_initialized ++ serKey c.participant1 ++ serKey c.participant2 ++
    serKey c.participant1_public_key ++ serKey c.participant2_public_key ++
    serI64 c.created_at ++ serU64 c.message_count ++ serI64 c.last_message_at

/-- Borsh serialization of a Message record: fields in declaration order. -/
def messageSerialize (m : Message) : List Nat :=
  serBool m.is_initialized ++ serKey m.chat ++ serKey m.sender ++
    serU64 m.index ++ serI64 m.timestamp ++ serI64 m.expires_at ++
    serKey m.ephemeral_public_key ++ serVec m.encrypted_data

/-- Borsh deserialization of a Chat record, returning the remaining bytes. -/
def chatDeserialize (bs : List Nat) : Option (Chat × List Nat) :=
  (readBool bs).bind fun (ini, bs) =>
  (readKey bs).bind fun (p1, bs) =>
  (readKey bs).bind fun (p2, bs) =>
  (readKey bs).bind fun (pk1, bs) =>
  (readKey bs).bind fun (pk2, bs) =>
  (readI64 bs).bind fun (ca, bs) =>
  (readU64 bs).bind fun (mc, bs) =>
  (readI64 bs).bind fun (lm, bs) =>
  some ({ is_initialized := ini, participant1 := p1, participant2 := p2,
          participant1_public_key := pk1, participant2_public_key := pk2,
          created_at := ca, message_count := mc, last_message_at := lm }, bs)

/-- Borsh deserialization of a Message record, returning the remaining bytes. -/
def messageDeserialize (bs : List Nat) : Option (Message × List Nat) :=
  (readBool bs).bind fun (ini, bs) =>
  (readKey bs).bind fun (ch, bs) =>
  (readKey bs).bind fun (sn, bs) =>
  (readU64 bs).bind fun (ix, bs) =>
  (readI64 bs).bind fun (ts, bs) =>
  (readI64 bs).bind fun (ex, bs) =>
  (readKey bs).bind fun (ek, bs) =>
  (readVec bs).bind fun (ed, bs) =>
  some ({ is_initialized := ini, chat := ch, sender := sn, index := ix,
          timestamp := ts, expires_at := ex, ephemeral_public_key := ek,
          encrypted_data := ed }, bs)

/-- `Chat::try_from_slice`: deserialize and require that every byte of the
slice is consumed (borsh rejects leftover bytes). -/
def chatTryFromSlice (bs : List Nat) : Option Chat :=
  match chatDeserialize bs with
  | some (c, []) => some c
  | _ => none

/-- `Message::try_from_slice`. -/
def messageTryFromSlice (bs : List Nat) : Option Message :=
  match messageDeserialize bs with
  | some (m, []) => some m
  | _ => none

/-! ### Reader / serializer round trips -/

theorem readBool_serBool (b : Bool) (rest : List Nat) :
    readBool (serBool b ++ rest) = some (b, rest) := by
  cases b <;> simp [serBool, readBool]

theorem readKey_serKey (k : Key) (rest : List Nat) :
    readKey (serKey k ++ rest) = some (k, rest) := by
  have hl : (serKey k).length = 32 := k.prop
  rw [readKey, dif_pos (by simp [hl])]
  have h1 : (serKey k ++ rest).take 32 = k.val := List.take_left' hl
  have h2 : (serKey k ++ rest).drop 32 = rest := List.drop_left' hl
  exact congrArg some (by rw [Prod.mk.injEq]; exact ⟨Subtype.ext h1, h2⟩)

/-- The u64 wrap: what an unsigned 64-bit register holds. -/
def wrapU64 (n : Nat) : Nat := n % 2 ^ 64

/-- The i64 wrap: the two's-complement value an i64 register holds. -/
def wrapI64 (i : Int) : Int :=
  if i % 2 ^ 64 < 2 ^ 63 then i % 2 ^ 64 else i % 2 ^ 64 - 2 ^ 64

theorem readU64_serU64 (n : Nat) (rest : List Nat) :
    readU64 (serU64 n ++ rest) = some (wrapU64 n, rest) := by
  have hl : (serU64 n).length = 8 := natToLE_length 8 n
  rw [readU64, if_pos (by simp [hl]), List.take_left' hl, List.drop_left' hl]
  rw [serU64, leToNat_natToLE, wrapU64]
  norm_num

theorem readI64_serI64 (i : Int) (rest : List Nat) :
    readI64 (serI64 i ++ rest) = some (wrapI64 i, rest) := by
  have hl : (serI64 i).length = 8 := natToLE_length 8 _
  rw [readI64, if_pos (by simp [hl]), List.take_left' hl, List.drop_left' hl]
  have hnn : (0 : Int) ≤ i % 2 ^ 64 := Int.emod_nonneg i (by norm_num)
  have hlt : i % 2 ^ 64 < 2 ^ 64 := Int.emod_lt_of_pos i (by norm_num)
  have hn : leToNat (natToLE 8 (i % 2 ^ 64).toNat) = (i % 2 ^ 64).toNat := by
    rw [leToNat_natToLE]
    exact Nat.mod_eq_of_lt (by omega)
  have hval : leToInt64 (natToLE 8 (i % 2 ^ 64).toNat) = wrapI64 i := by
    rw [leToInt64, hn, wrapI64]
    split_ifs <;> omega
  rw [serI64, intToLE64, hval]

theorem readVec_serVec (d rest : List Nat) (h : d.length < 2 ^ 32) :
    readVec (serVec d ++ rest) = some (d, rest) := by
  have hl : (natToLE 4 d.length).length = 4 := natToLE_length 4 _
  rw [serVec, List.append_assoc, readVec]
  rw [if_pos (by simp [hl]), List.take_left' hl, List.drop_left' hl]
  have hmod : leToNat (natToLE 4 d.length) = d.length := by
    rw [leToNat_natToLE]
    have h4 : (256 : Nat) ^ 4 = 2 ^ 32 := by norm_num
    exact Nat.mod_eq_of_lt (by omega)
  rw [hmod, if_pos (by simp), List.take_left, List.drop_left]

/-- The Chat record as it reads back after one encode/decode cycle: every
i64/u64 field is reduced to its machine-register value. -/
def chatWrap (c : Chat) : Chat :=
  { c with created_at := wrapI64 c.created_at,
           message_count := wrapU64 c.message_count,
           last_message_at := wrapI64 c.last_message_at }

/-- The Message record as it reads back after one encode/decode cycle. -/
def messageWrap (m : Message) : Message :=
  { m with index := wrapU64 m.index,
           timestamp := wrapI64 m.timestamp,
           expires_at := wrapI64 m.expires_at }

theorem chatDeserialize_chatSerialize (c : Chat) (rest : List Nat) :
    chatDeserialize (chatSerialize c ++ rest) = some (chatWrap c, rest) := by
  rw [chatSerialize]
  simp only [List.append_assoc]
  rw [chatDeserialize]
  simp only [readBool_serBool, readKey_serKey, readI64_serI64, readU64_serU64,
    Option.some_bind]
  rfl

theorem messageDeserialize_messageSerialize (m : Message) (rest : List Nat)
    (h : m.encrypted_data.length < 2 ^ 32) :
    messageDeserialize (messageSerialize m ++ rest) = some (messageWrap m, rest) := by
  rw [messageSerialize]
  simp only [List.append_assoc]
  rw [messageDeserialize]
  simp only [readBool_serBool, readKey_serKey, readI64_serI64, readU64_serU64,
    readVec_serVec _ _ h, Option.some_bind]
  rfl

theorem chatTryFromSlice_chatSerialize (c : Chat) :
    chatTryFromSlice (chatSerialize c) = some (chatWrap c) := by
  have h := chatDeserialize_chatSerialize c []
  rw [List.append_nil] at h
  rw [chatTryFromSlice, h]

theorem messageTryFromSlice_messageSerialize (m : Message)
    (h : m.encrypted_data.length < 2 ^ 32) :
    messageTryFromSlice (messageSerialize m) = some (messageWrap m) := by
  have h2 := messageDeserialize_messageSerialize m [] h
  rw [List.append_nil] at h2
  rw [messageTryFromSlice, h2]

/-! ### Length accounting for the codec -/

theorem serBool_length (b : Bool) : (serBool b).length = 1 := by
  cases b <;> rfl

theorem chatSerialize_length (c : Chat) : (chatSerialize c).length = Chat.LEN := by
  simp [chatSerialize, serKey, serU64, serI64, intToLE64, serBool_length,
    natToLE_length, c.participant1.prop, c.participant2.prop,
    c.participant1_public_key.prop, c.participant2_public_key.prop, Chat.LEN]

theorem messageSerialize_length (m : Message) :
    (messageSerialize m).length = Message.space m.encrypted_data.length := by
  simp [messageSerialize, serKey, serU64, serI64, serVec, intToLE64, serBool_length,
    natToLE_length, m.chat.prop, m.sender.prop, m.ephemeral_public_key.prop,
    Message.space]
  omega

theorem readBool_length {bs : List Nat} {x : Bool} {r : List Nat}
    (h : readBool bs = some (x, r)) : bs.length = 1 + r.length := by
  cases bs with
  | nil => simp [readBool] at h
  | cons b t =>
    rw [readBool] at h
    split_ifs at h <;> simp_all <;> omega

theorem readKey_length {bs : List Nat} {k : Key} {r : List Nat}
    (h : readKey bs = some (k, r)) : bs.length = 32 + r.length := by
  rw [readKey] at h
  split at h
  · next h32 =>
    simp only [Option.some.injEq, Prod.mk.injEq] at h
    obtain ⟨-, hr⟩ := h
    subst hr
    simp [List.length_drop]
    omega
  · simp at h

theorem readU64_length {bs : List Nat} {x : Nat} {r : List Nat}
    (h : readU64 bs = some (x, r)) : bs.length = 8 + r.length := by
  rw [readU64] at h
  split at h
  · next h8 =>
    simp only [Option.some.injEq, Prod.mk.injEq] at h
    obtain ⟨-, hr⟩ := h
    subst hr
    simp [List.length_drop]
    omega
  · simp at h

theorem readI64_length {bs : List Nat} {x : Int} {r : List Nat}
    (h : readI64 bs = some (x, r)) : bs.length = 8 + r.length := by
  rw [readI64] at h
  split at h
  · next h8 =>
    simp only [Option.some.injEq, Prod.mk.injEq] at h
    obtain ⟨-, hr⟩ := h
    subst hr
    simp [List.length_drop]
    omega
  · simp at h

theorem readVec_length {bs : List Nat} {v r : List Nat}
    (h : readVec bs = some (v, r)) : bs.length = 4 + v.length + r.length := by
  rw [readVec] at h
  split at h
  · next h4 =>
    split at h
    · next hlen =>
      simp only [Option.some.injEq, Prod.mk.injEq] at h
      obtain ⟨hv, hr⟩ := h
      subst hv
      subst hr
      simp only [List.length_take, List.length_drop] at hlen ⊢
      omega
    · simp at h
  · simp at h

theorem chatDeserialize_length {bs : List Nat} {c : Chat} {rest : List Nat}
    (h : chatDeserialize bs = some (c, rest)) : bs.length = Chat.LEN + rest.length := by
  rw [chatDeserialize] at h
  simp only [Option.bind_eq_some, Prod.exists, Option.some.injEq, Prod.mk.injEq] at h
  obtain ⟨ini, bs1, h1, p1, bs2, h2, p2, bs3, h3, pk1, bs4, h4, pk2, bs5, h5,
    ca, bs6, h6, mc, bs7, h7, lm, bs8, h8, -, hrest⟩ := h
  have e1 := readBool_length h1
  have e2 := readKey_length h2
  have e3 := readKey_length h3
  have e4 := readKey_length h4
  have e5 := readKey_length h5
  have e6 := readI64_length h6
  have e7 := readU64_length h7
  have e8 := readI64_length h8
  subst hrest
  rw [Chat.LEN]
  omega

theorem messageDeserialize_length {bs : List Nat} {m : Message} {rest : List Nat}
    (h : messageDeserialize bs = some (m, rest)) :
    bs.length = Message.space m.encrypted_data.length + rest.length := by
  rw [messageDeserialize] at h
  simp only [Option.bind_eq_some, Prod.exists, Option.some.injEq, Prod.mk.injEq] at h
  obtain ⟨ini, bs1, h1, ch, bs2, h2, sn, bs3, h3, ix, bs4, h4, ts, bs5, h5,
    ex, bs6, h6, ek, bs7, h7, ed, bs8, h8, hm, hrest⟩ := h
  have e1 := readBool_length h1
  have e2 := readKey_length h2
  have e3 := readKey_length h3
  have e4 := readU64_length h4
  have e5 := readI64_length h5
  have e6 := readI64_length h6
  have e7 := readKey_length h7
  have e8 := readVec_length h8
  subst hrest
  have hed : m.encrypted_data = ed := by rw [← hm]
  rw [Message.space, hed]
  omega

theorem chatTryFromSlice_length {bs : List Nat} {c : Chat}
    (h : chatTryFromSlice bs = some c) : bs.length = Chat.LEN := by
  rw [chatTryFromSlice] at h
  split at h
  · next heq =>
    have := chatDeserialize_length heq
    simpa using this
  · simp at h

theorem messageTryFromSlice_length {bs : List Nat} {m : Message}
    (h : messageTryFromSlice bs = some m) :
    bs.length = Message.space m.encrypted_data.length := by
  rw [messageTryFromSlice] at h
  split at h
  · next heq =>
    simp only [Option.some.injEq] at h
    subst h
    have := messageDeserialize_length heq
    simpa using this
  · simp at h

/-! ### Errors (src/program/src/error.rs and solana ProgramError) -/

/-- The program's closed error taxonomy (src/program/src/error.rs). -/
inductive WhisperChainError where
  | InvalidInstruction
  | NotAuthorized
  | NotInitialized
  | AlreadyInitialized
  | InvalidAccountOwner
  | MessageExpired
  | InvalidPublicKey
  | DataTooLarge
deriving DecidableEq

/-- The host error type as the processor uses it: the handful of
`solana_program::program_error::ProgramError` variants the code returns or
propagates, plus `Custom` for the program's own errors. -/
inductive ProgErr where
  | MissingRequiredSignature
  | InvalidAccountData
  | ArithmeticOverflow
  | BorshIoError
  | CreateAccountFailed
  | Custom (e : WhisperChainError)
deriving DecidableEq

/-! ### Accounts and host primitives -/

/-- One host-supplied account handle: identifier, owner tag, signer flag,
deposit balance (lamports, a u64) and byte storage. -/
structure AccountInfo where
  key : Key
  owner : Key
  is_signer : Bool
  lamports : Nat
  data : List Nat
deriving DecidableEq

/-- Modelled from the spec: the host's account-creation primitive invoked
through `invoke_signed(system_instruction::create_account(..))`, whose code
is not part of this repository.  Per the boundary contract it funds the new
account from the payer, allocates exactly `space` zeroed bytes, assigns the
owner, and fails (atomically, with the whole call reverted by the host) when
the target account is already in use or the payer cannot fund it. -/
def createAccount (payer target : AccountInfo) (lamports space : Nat) (owner : Key) :
    Option (AccountInfo × AccountInfo) :=
  if target.lamports ≠ 0 ∨ target.data ≠ [] then none
  else if payer.lamports < lamports then none
  else some ({ payer with lamports := payer.lamports - lamports },
             { target with owner := owner, lamports := lamports,
                           data := List.replicate space 0 })

/-- borsh `serialize(&mut &mut account.data[..])`: write the encoding over
the front of the buffer, failing when the buffer is too short. -/
def serializeInto (enc buf : List Nat) : Option (List Nat) :=
  if enc.length ≤ buf.length then some (enc ++ buf.drop enc.length) else none

/-- The seed literal `b"chat"`. -/
def chatSeed : List Nat := [99, 104, 97, 116]

/-- The seed literal `b"message"`. -/
def messageSeed : List Nat := [109, 101, 115, 115, 97, 103, 101]

/-- The type of the host's `Pubkey::find_program_address`: a deterministic
map from a seed list and a program id to a derived address and a bump byte.
Its hash-based implementation is not part of this repository, so the
processor is parametrised over it (the code only ever compares its first
component against a caller-supplied key). -/
def Fpa : Type := List (List Nat) → Key → Key × Nat

/-! ### The instruction processor (src/program/src/processor.rs)

Each handler takes the host parameters (`fpa` for address derivation,
`rentMin` for `Rent::minimum_balance`, `now` for the clock sysvar's
`unix_timestamp`) and the positional accounts the instruction expects, and
returns the optional error together with the accounts as left after the
call.  The system-program account is omitted: the code only forwards it to
`invoke_signed`, which `createAccount` models.  `message_count += 1` is u64
register arithmetic and is modelled with the wrap `% 2^64` (the on-chain
release profile compiles `+=` without an overflow check). -/

/-- `Processor::process_initialize_chat`. -/
def process_initialize_chat (fpa : Fpa) (rentMin : Nat → Nat) (program_id : Key)
    (now : Int) (initializer chat_account : AccountInfo) (public_key : Key) :
    Option ProgErr × AccountInfo × AccountInfo :=
  if ¬ initializer.is_signer then
    (some .MissingRequiredSignature, initializer, chat_account)
  else
    let chat_pda := (fpa [chatSeed, initializer.key.val] program_id).1
    if chat_pda ≠ chat_account.key then
      (some .InvalidAccountData, initializer, chat_account)
    else
      match createAccount initializer chat_account (rentMin Chat.LEN) Chat.LEN program_id with
      | none => (some .CreateAccountFailed, initializer, chat_account)
      | some (initializer2, chat_account2) =>
        let chat : Chat :=
          { is_initialized := true
            participant1 := initializer.key
            participant2 := zeroKey
            participant1_public_key := public_key
            participant2_public_key := zeroKey
            created_at := now
            message_count := 0
            last_message_at := 0 }
        match serializeInto (chatSerialize chat) chat_account2.data with
        | none => (some .BorshIoError, initializer2, chat_account2)
        | some d => (none, initializer2, { chat_account2 with data := d })

/-- `Processor::process_send_message`. -/
def process_send_message (fpa : Fpa) (rentMin : Nat → Nat) (program_id : Key)
    (sender chat_account message_account : AccountInfo)
    (encrypted_data : List Nat) (ephemeral_public_key : Key)
    (timestamp expires_at : Int) :
    Option ProgErr × AccountInfo × AccountInfo × AccountInfo :=
  if ¬ sender.is_signer then
    (some .MissingRequiredSignature, sender, chat_account, message_account)
  else if encrypted_data.length > MAX_MESSAGE_SIZE then
    (some (.Custom .DataTooLarge), sender, chat_account, message_account)
  else if chat_account.owner ≠ program_id then
    (some (.Custom .InvalidAccountOwner), sender, chat_account, message_account)
  else
    match chatTryFromSlice chat_account.data with
    | none => (some .BorshIoError, sender, chat_account, message_account)
    | some chat0 =>
      if ¬ chat0.is_initialized then
        (some (.Custom .NotInitialized), sender, chat_account, message_account)
      else
        let auth : Option Chat :=
          if chat0.participant2 = zeroKey ∧ chat0.participant1 ≠ sender.key then
            some { chat0 with participant2 := sender.key,
                              participant2_public_key := ephemeral_public_key }
          else if chat0.is_participant sender.key then some chat0
          else none
        match auth with
        | none => (some (.Custom .NotAuthorized), sender, chat_account, message_account)
        | some chat1 =>
          let message_index := chat1.message_count
          let message_pda :=
            (fpa [messageSeed, chat_account.key.val, natToLE 8 message_index] program_id).1
          if message_pda ≠ message_account.key then
            (some .InvalidAccountData, sender, chat_account, message_account)
          else
            match createAccount sender message_account
                (rentMin (Message.space encrypted_data.length))
                (Message.space encrypted_data.length) program_id with
            | none => (some .CreateAccountFailed, sender, chat_account, message_account)
            | some (sender2, message_account2) =>
              let message : Message :=
                { is_initialized := true
                  chat := chat_account.key
                  sender := sender.key
                  index := message_index
                  timestamp := timestamp
                  expires_at := expires_at
                  ephemeral_public_key := ephemeral_public_key
                  encrypted_data := encrypted_data }
              match serializeInto (messageSerialize message) message_account2.data with
              | none => (some .BorshIoError, sender2, chat_account, message_account2)
              | some md =>
                let message_account3 := { message_account2 with data := md }
                let chat2 := { chat1 with
                  message_count := (chat1.message_count + 1) % 2 ^ 64
                  last_message_at := timestamp }
                match serializeInto (chatSerialize chat2) chat_account.data with
                | none => (some .BorshIoError, sender2, chat_account, message_account3)
                | some cd =>
                  (none, sender2, { chat_account with data := cd }, message_account3)

/-- `Processor::process_delete_chat`. -/
def process_delete_chat (program_id : Key) (participant chat_account : AccountInfo) :
    Option ProgErr × AccountInfo × AccountInfo :=
  if ¬ participant.is_signer then
    (some .MissingRequiredSignature, participant, chat_account)
  else if chat_account.owner ≠ program_id then
    (some (.Custom .InvalidAccountOwner), participant, chat_account)
  else
    match chatTryFromSlice chat_account.data with
    | none => (some .BorshIoError, participant, chat_account)
    | some chat =>
      if ¬ chat.is_initialized then
        (some (.Custom .NotInitialized), participant, chat_account)
      else if ¬ chat.is_participant participant.key then
        (some (.Custom .NotAuthorized), participant, chat_account)
      else if participant.lamports + chat_account.lamports ≥ 2 ^ 64 then
        (some .ArithmeticOverflow, participant, chat_account)
      else
        (none,
         { participant with lamports := participant.lamports + chat_account.lamports },
         { chat_account with lamports := 0,
                             data := List.replicate chat_account.data.length 0 })

/-- `Processor::process_delete_message`.  The expiry check only logs an
auto-delete note (`msg!`); it does not alter the result. -/
def process_delete_message (program_id : Key) (now : Int)
    (sender message_account chat_account : AccountInfo) :
    Option ProgErr × AccountInfo × AccountInfo × AccountInfo :=
  if ¬ sender.is_signer then
    (some .MissingRequiredSignature, sender, message_account, chat_account)
  else if message_account.owner ≠ program_id then
    (some (.Custom .InvalidAccountOwner), sender, message_account, chat_account)
  else
    match messageTryFromSlice message_account.data with
    | none => (some .BorshIoError, sender, message_account, chat_account)
    | some message =>
      if ¬ message.is_initialized then
        (some (.Custom .NotInitialized), sender, message_account, chat_account)
      else if message.chat ≠ chat_account.key then
        (some .InvalidAccountData, sender, message_account, chat_account)
      else if message.sender ≠ sender.key then
        (some (.Custom .NotAuthorized), sender, message_account, chat_account)
      else
        let _auto_delete := message.is_expired now
        if sender.lamports + message_account.lamports ≥ 2 ^ 64 then
          (some .ArithmeticOverflow, sender, message_account, chat_account)
        else
          (none,
           { sender with lamports := sender.lamports + message_account.lamports },
           { message_account with lamports := 0,
                                  data := List.replicate message_account.data.length 0 },
           chat_account)

/-! ### Sequenced sends against one chat account -/

/-- The caller-supplied inputs of one `SendMessage` call: the signing sender
account, the fresh message account, and the instruction arguments. -/
structure SendArgs where
  sender : AccountInfo
  message_account : AccountInfo
  encrypted_data : List Nat
  ephemeral_public_key : Key
  timestamp : Int
  expires_at : Int

/-- Run a list of `SendMessage` calls in order against an evolving chat
account, requiring every call to succeed; returns the final chat account and
the message accounts as written, in send order. -/
def runSends (fpa : Fpa) (rentMin : Nat → Nat) (program_id : Key) :
    AccountInfo → List SendArgs → Option (AccountInfo × List AccountInfo)
  | ca, [] => some (ca, [])
  | ca, a :: rest =>
    match process_send_message fpa rentMin program_id a.sender ca a.message_account
        a.encrypted_data a.ephemeral_public_key a.timestamp a.expires_at with
    | (none, _, ca2, ma) =>
      match runSends fpa rentMin program_id ca2 rest with
      | some (caf, mas) => some (caf, ma :: mas)
      | none => none
    | (some _, _, _, _) => none

/-! ### Well-formed records: field values a real register/byte can hold -/

/-- The i64 value range. -/
def i64Range (i : Int) : Prop := -(2 ^ 63) ≤ i ∧ i < 2 ^ 63

instance (i : Int) : Decidable (i64Range i) := inferInstanceAs (Decidable (_ ∧ _))

/-- Every entry of the list is a byte value. -/
def bytesWF (bs : List Nat) : Prop := ∀ b ∈ bs, b < 256

instance (bs : List Nat) : Decidable (bytesWF bs) := List.decidableBAll _ bs

/-- A valid Chat record: key bytes are bytes and numeric fields fit their
machine type. -/
def ChatWF (c : Chat) : Prop :=
  bytesWF c.participant1.val ∧ bytesWF c.participant2.val ∧
  bytesWF c.participant1_public_key.val ∧ bytesWF c.participant2_public_key.val ∧
  i64Range c.created_at ∧ c.message_count < 2 ^ 64 ∧ i64Range c.last_message_at

instance (c : Chat) : Decidable (ChatWF c) := inferInstanceAs (Decidable (_ ∧ _))

/-- A valid Message record; `encrypted_data` respects `MAX_MESSAGE_SIZE`. -/
def MessageWF (m : Message) : Prop :=
  bytesWF m.chat.val ∧ bytesWF m.sender.val ∧ m.index < 2 ^ 64 ∧
  i64Range m.timestamp ∧ i64Range m.expires_at ∧
  bytesWF m.ephemeral_public_key.val ∧ bytesWF m.encrypted_data ∧
  m.encrypted_data.length ≤ MAX_MESSAGE_SIZE

instance (m : Message) : Decidable (MessageWF m) := inferInstanceAs (Decidable (_ ∧ _))

theorem wrapU64_eq_of_lt {n : Nat} (h : n < 2 ^ 64) : wrapU64 n = n :=
  Nat.mod_eq_of_lt h

theorem wrapI64_eq_of_range {i : Int} (h : i64Range i) : wrapI64 i = i := by
  obtain ⟨h1, h2⟩ := h
  rw [wrapI64]
  split <;> omega

theorem chatWrap_eq_of_wf {c : Chat} (h : ChatWF c) : chatWrap c = c := by
  obtain ⟨-, -, -, -, h5, h6, h7⟩ := h
  cases c with
  | mk ini p1 p2 pk1 pk2 ca mc lm =>
    simp only [chatWrap]
    rw [wrapI64_eq_of_range h5, wrapU64_eq_of_lt h6, wrapI64_eq_of_range h7]

theorem messageWrap_eq_of_wf {m : Message} (h : MessageWF m) : messageWrap m = m := by
  obtain ⟨-, -, h3, h4, h5, -, -, -⟩ := h
  cases m with
  | mk ini ch sn ix ts ex ek ed =>
    simp only [messageWrap]
    rw [wrapU64_eq_of_lt h3, wrapI64_eq_of_range h4, wrapI64_eq_of_range h5]

/-! ### Decoding all-zero buffers -/

/-- The Chat record a zero-filled buffer decodes to. -/
def zeroChat : Chat :=
  { is_initialized := false, participant1 := zeroKey, participant2 := zeroKey,
    participant1_public_key := zeroKey, participant2_public_key := zeroKey,
    created_at := 0, message_count := 0, last_message_at := 0 }

/-- The Message record a zero-filled minimum-size buffer decodes to. -/
def zeroMessage : Message :=
  { is_initialized := false, chat := zeroKey, sender := zeroKey, index := 0,
    timestamp := 0, expires_at := 0, ephemeral_public_key := zeroKey,
    encrypted_data := [] }

theorem readBool_replicate {k : Nat} (h : 1 ≤ k) :
    readBool (List.replicate k 0) = some (false, List.replicate (k - 1) 0) := by
  obtain ⟨j, rfl⟩ : ∃ j, k = j + 1 := ⟨k - 1, by omega⟩
  simp [List.replicate_succ, readBool]

theorem readKey_replicate {k : Nat} (h : 32 ≤ k) :
    readKey (List.replicate k 0) = some (zeroKey, List.replicate (k - 32) 0) := by
  rw [readKey, dif_pos (by simp; omega)]
  have ht : (List.replicate k (0 : Nat)).take 32 = List.replicate 32 0 := by
    rw [List.take_replicate]
    congr 1
    omega
  have hd : (List.replicate k (0 : Nat)).drop 32 = List.replicate (k - 32) 0 :=
    List.drop_replicate 0 32 k
  exact congrArg some (by rw [Prod.mk.injEq]; exact ⟨Subtype.ext ht, hd⟩)

theorem readU64_replicate {k : Nat} (h : 8 ≤ k) :
    readU64 (List.replicate k 0) = some (0, List.replicate (k - 8) 0) := by
  rw [readU64, if_pos (by simp; omega)]
  have ht : (List.replicate k (0 : Nat)).take 8 = List.replicate 8 0 := by
    rw [List.take_replicate]
    congr 1
    omega
  rw [ht, List.drop_replicate, leToNat_replicate_zero]

theorem readI64_replicate {k : Nat} (h : 8 ≤ k) :
    readI64 (List.replicate k 0) = some (0, List.replicate (k - 8) 0) := by
  rw [readI64, if_pos (by simp; omega)]
  have ht : (List.replicate k (0 : Nat)).take 8 = List.replicate 8 0 := by
    rw [List.take_replicate]
    congr 1
    omega
  rw [ht, List.drop_replicate, leToInt64, leToNat_replicate_zero]
  norm_num

theorem readVec_replicate {k : Nat} (h : 4 ≤ k) :
    readVec (List.replicate k 0) = some ([], List.replicate (k - 4) 0) := by
  have ht : (List.replicate k (0 : Nat)).take 4 = List.replicate 4 0 := by
    rw [List.take_replicate]
    congr 1
    omega
  rw [readVec, if_pos (by simp; omega), ht, leToNat_replicate_zero,
    if_pos (Nat.zero_le _), List.take_zero, List.drop_zero, List.drop_replicate]

set_option maxRecDepth 4000 in
theorem messageDeserialize_replicate (n : Nat) :
    messageDeserialize (List.replicate (n + 125) 0) =
      some (zeroMessage, List.replicate n 0) := by
  rw [messageDeserialize]
  rw [readBool_replicate (by omega)]
  simp only [Option.some_bind]
  rw [readKey_replicate (by omega)]
  simp only [Option.some_bind]
  rw [readKey_replicate (by omega)]
  simp only [Option.some_bind]
  rw [readU64_replicate (by omega)]
  simp only [Option.some_bind]
  rw [readI64_replicate (by omega)]
  simp only [Option.some_bind]
  rw [readI64_replicate (by omega)]
  simp only [Option.some_bind]
  rw [readKey_replicate (by omega)]
  simp only [Option.some_bind]
  rw [readVec_replicate (by omega)]
  simp only [Option.some_bind]
  rw [show n + 125 - 1 - 32 - 32 - 8 - 8 - 8 - 32 - 4 = n from by omega]
  rfl

/-! ### Shared record-level round trips -/

theorem chatRoundTrip {c : Chat} (h : ChatWF c) :
    chatTryFromSlice (chatSerialize c) = some c := by
  rw [chatTryFromSlice_chatSerialize, chatWrap_eq_of_wf h]

theorem messageRoundTrip {m : Message} (h : MessageWF m) :
    messageTryFromSlice (messageSerialize m) = some m := by
  have hlen : m.encrypted_data.length < 2 ^ 32 := by
    have := h.2.2.2.2.2.2.2
    rw [MAX_MESSAGE_SIZE] at this
    omega
  rw [messageTryFromSlice_messageSerialize m hlen, messageWrap_eq_of_wf h]

/-! ### Concrete fixtures -/

def wPid : Key := ⟨List.replicate 32 9, by simp⟩

def wKeyA : Key := ⟨List.replicate 32 1, by simp⟩

def wKeyB : Key := ⟨List.replicate 32 2, by simp⟩

def wKeyC : Key := ⟨List.replicate 32 3, by simp⟩

def wFpa : Fpa := fun _ _ => (zeroKey, 255)

def wRent : Nat → Nat := fun _ => 0

/-! ### C7: the expiry predicate -/

def wNeverExpiresNeg : Message := { zeroMessage with is_initialized := true, expires_at := -1 }

/-- C7 counterexample: a Message with `expires_at = -1` satisfies the claim's
condition (`expires_at != 0` and current time `>= expires_at`), yet
`Message::is_expired` is false at current time 0: the code tests
`expires_at > 0`, not `expires_at != 0`. -/
theorem is_expired_negative_cex :
    wNeverExpiresNeg.expires_at ≠ 0 ∧ (0 : Int) ≥ wNeverExpiresNeg.expires_at ∧
    wNeverExpiresNeg.is_expired 0 = false := by
  decide

/-- C7 (amended): `Message::is_expired m t` holds exactly when
`m.expires_at > 0` and `t ≥ m.expires_at`; a zero or negative `expires_at`
never counts as expired. -/
theorem is_expired_iff_positive_and_reached (m : Message) (t : Int) :
    m.is_expired t = true ↔ 0 < m.expires_at ∧ m.expires_at ≤ t := by
  rw [Message.is_expired]
  simp only [Bool.and_eq_true, decide_eq_true_eq, gt_iff_lt, ge_iff_le]

/-! ### C9: the zero identifier is accepted while participant2 is unset -/

def wUnassignedChat : Chat :=
  { is_initialized := true, participant1 := wKeyB, participant2 := zeroKey,
    participant1_public_key := wKeyB, participant2_public_key := zeroKey,
    created_at := 5, message_count := 0, last_message_at := 0 }

def wZeroSigner : AccountInfo :=
  { key := zeroKey, owner := zeroKey, is_signer := true, lamports := 4, data := [] }

def wUnassignedChatAcc : AccountInfo :=
  { key := wKeyA, owner := wPid, is_signer := false, lamports := 6,
    data := chatSerialize wUnassignedChat }

/-- C9: while `participant2` is still the zero identifier,
`Chat::is_participant` accepts the zero identifier itself, and
`process_delete_chat` lets a signer whose key is all zero bytes pass the
participant check (the call succeeds). -/
theorem zero_identifier_authorized :
    (∀ c : Chat, c.participant2 = zeroKey → c.is_participant zeroKey = true) ∧
    (∀ (pid : Key) (participant ca : AccountInfo) (c : Chat),
      participant.is_signer = true → participant.key = zeroKey →
      ca.owner = pid → chatTryFromSlice ca.data = some c →
      c.is_initialized = true → c.participant2 = zeroKey →
      participant.lamports + ca.lamports < 2 ^ 64 →
      (process_delete_chat pid participant ca).1 = none) := by
  constructor
  · intro c h
    rw [Chat.is_participant, h]
    simp
  · intro pid participant ca c hs hk ho hdec hini hp2 hover
    have hpart : c.is_participant participant.key = true := by
      rw [Chat.is_participant, hk, hp2]
      simp
    rw [process_delete_chat, if_neg (by simp [hs]), if_neg (by simp [ho]), hdec]
    split
    · rename_i heq
      exact absurd heq (by simp)
    · rename_i chat heq
      obtain rfl : c = chat := by injection heq
      rw [if_neg (by simp [hini]), if_neg (by simp [hpart]), if_neg (by omega)]

set_option maxRecDepth 100000 in
theorem zero_identifier_authorized_witness :
    wUnassignedChat.is_participant zeroKey = true ∧
    (process_delete_chat wPid wZeroSigner wUnassignedChatAcc).1 = none :=
  ⟨zero_identifier_authorized.1 wUnassignedChat rfl,
   zero_identifier_authorized.2 wPid wZeroSigner wUnassignedChatAcc wUnassignedChat
     rfl rfl rfl (chatRoundTrip (by decide)) rfl rfl (by decide)⟩

/-! ### C6: decoding zero-filled and truncated buffers -/

def wZeroedChatAcc : AccountInfo :=
  { key := wKeyA, owner := wPid, is_signer := false, lamports := 1,
    data := List.replicate Chat.LEN 0 }

set_option maxRecDepth 100000 in
/-- C6 counterexample: a zero-filled buffer of `Message::space(1)` bytes does
not decode to an uninitialized Message record: borsh rejects it (the vec
length prefix reads 0, leaving an unconsumed byte), and a truncated 64-byte
Chat buffer is likewise rejected rather than read as uninitialized. -/
theorem zero_filled_decode_cex :
    messageTryFromSlice (List.replicate (Message.space 1) 0) = none ∧
    chatTryFromSlice (List.replicate 64 0) = none := by
  decide

set_option maxRecDepth 100000 in
/-- C6 (amended): decoding never panics (it is total and returns through
`Option`); a zero-filled buffer of exactly `Chat::LEN` bytes (resp.
`Message::space(0)` bytes) decodes to a record with `is_initialized = false`,
so `process_delete_chat` on a zeroed chat account reports `NotInitialized`;
but a truncated buffer, or a zero-filled Message buffer of `space(n)` bytes
with `n > 0`, fails to decode at all, so those paths surface a borsh decode
failure rather than `NotInitialized`. -/
theorem zero_filled_and_truncated_decode :
    (chatTryFromSlice (List.replicate Chat.LEN 0) = some zeroChat ∧
      zeroChat.is_initialized = false) ∧
    (messageTryFromSlice (List.replicate (Message.space 0) 0) = some zeroMessage ∧
      zeroMessage.is_initialized = false) ∧
    (∀ (pid : Key) (participant ca : AccountInfo),
      participant.is_signer = true → ca.owner = pid →
      ca.data = List.replicate Chat.LEN 0 →
      (process_delete_chat pid participant ca).1 =
        some (ProgErr.Custom WhisperChainError.NotInitialized)) ∧
    (∀ bs : List Nat, bs.length < Chat.LEN → chatTryFromSlice bs = none) ∧
    (∀ bs : List Nat, bs.length < Message.space 0 → messageTryFromSlice bs = none) ∧
    (∀ n : Nat, 0 < n → messageTryFromSlice (List.replicate (Message.space n) 0) = none) := by
  refine ⟨⟨by decide, rfl⟩, ⟨by decide, rfl⟩, ?_, ?_, ?_, ?_⟩
  · intro pid participant ca hs ho hdata
    have hdec : chatTryFromSlice ca.data = some zeroChat := by
      rw [hdata]
      decide
    rw [process_delete_chat, if_neg (by simp [hs]), if_neg (by simp [ho]), hdec]
    split
    · rename_i heq
      exact absurd heq (by simp)
    · rename_i chat heq
      obtain rfl : zeroChat = chat := by injection heq
      rw [if_pos (by decide)]
  · intro bs h
    cases heq : chatTryFromSlice bs with
    | none => rfl
    | some c => exact absurd (chatTryFromSlice_length heq) (by omega)
  · intro bs h
    cases heq : messageTryFromSlice bs with
    | none => rfl
    | some m =>
      have hl := messageTryFromSlice_length heq
      rw [Message.space] at hl h
      omega
  · intro n hn
    obtain ⟨j, rfl⟩ : ∃ j, n = j + 1 := ⟨n - 1, by omega⟩
    have hsp : Message.space (j + 1) = (j + 1) + 125 := by
      rw [Message.space]
      omega
    rw [hsp, messageTryFromSlice, messageDeserialize_replicate (j + 1),
      List.replicate_succ]

set_option maxRecDepth 100000 in
theorem zero_filled_and_truncated_decode_witness :
    (process_delete_chat wPid wZeroSigner wZeroedChatAcc).1 =
      some (ProgErr.Custom WhisperChainError.NotInitialized) ∧
    chatTryFromSlice [] = none ∧
    messageTryFromSlice [5] = none ∧
    messageTryFromSlice (List.replicate (Message.space 2) 0) = none :=
  ⟨zero_filled_and_truncated_decode.2.2.1 wPid wZeroSigner wZeroedChatAcc rfl rfl rfl,
   zero_filled_and_truncated_decode.2.2.2.1 [] (by decide),
   zero_filled_and_truncated_decode.2.2.2.2.1 [5] (by decide),
   zero_filled_and_truncated_decode.2.2.2.2.2 2 (by decide)⟩

/-! ### C8: codec round trip -/

def wFullMessage : Message :=
  { is_initialized := true, chat := wKeyA, sender := wKeyB, index := 3,
    timestamp := 99, expires_at := -7, ephemeral_public_key := wKeyC,
    encrypted_data := List.replicate 512 250 }

def wEmptyMessage : Message := { wFullMessage with encrypted_data := [] }

/-- C8: `decode(encode(record)) == record` for every valid Chat record and
every valid Message record (encrypted payload up to and including 512
bytes). -/
theorem codec_round_trip :
    (∀ c : Chat, ChatWF c → chatTryFromSlice (chatSerialize c) = some c) ∧
    (∀ m : Message, MessageWF m → messageTryFromSlice (messageSerialize m) = some m) :=
  ⟨fun _ h => chatRoundTrip h, fun _ h => messageRoundTrip h⟩

set_option maxRecDepth 100000 in
theorem codec_round_trip_witness :
    chatTryFromSlice (chatSerialize wUnassignedChat) = some wUnassignedChat ∧
    messageTryFromSlice (messageSerialize wEmptyMessage) = some wEmptyMessage ∧
    messageTryFromSlice (messageSerialize wFullMessage) = some wFullMessage :=
  ⟨codec_round_trip.1 wUnassignedChat (by decide),
   codec_round_trip.2 wEmptyMessage (by decide),
   codec_round_trip.2 wFullMessage (by decide)⟩

/-! ### C4: only participants may send or delete a chat -/

theorem send_not_participant_fails
    (fpa : Fpa) (rentMin : Nat → Nat) (pid : Key) (sender ca ma : AccountInfo)
    (ed : List Nat) (epk : Key) (ts ex : Int) (c : Chat)
    (hs : sender.is_signer = true) (hlen : ed.length ≤ MAX_MESSAGE_SIZE)
    (ho : ca.owner = pid) (hdec : chatTryFromSlice ca.data = some c)
    (hini : c.is_initialized = true) (hp2 : c.participant2 ≠ zeroKey)
    (h1 : c.participant1 ≠ sender.key) (h2 : c.participant2 ≠ sender.key) :
    (process_send_message fpa rentMin pid sender ca ma ed epk ts ex).1 =
      some (ProgErr.Custom WhisperChainError.NotAuthorized) := by
  have hpart : c.is_participant sender.key = false := by
    rw [Chat.is_participant]
    simp [h1, h2]
  rw [process_send_message, if_neg (by simp [hs]), if_neg (by omega),
    if_neg (by simp [ho]), hdec]
  split
  · rename_i heq
    exact absurd heq (by simp)
  · rename_i chat heq
    obtain rfl : c = chat := by injection heq
    rw [if_neg (by simp [hini])]
    dsimp only
    rw [if_neg (by simp [hp2]), if_neg (by simp [hpart])]

theorem delete_chat_not_participant_fails
    (pid : Key) (participant ca : AccountInfo) (c : Chat)
    (hs : participant.is_signer = true) (ho : ca.owner = pid)
    (hdec : chatTryFromSlice ca.data = some c) (hini : c.is_initialized = true)
    (h1 : c.participant1 ≠ participant.key) (h2 : c.participant2 ≠ participant.key) :
    (process_delete_chat pid participant ca).1 =
      some (ProgErr.Custom WhisperChainError.NotAuthorized) := by
  have hpart : c.is_participant participant.key = false := by
    rw [Chat.is_participant]
    simp [h1, h2]
  rw [process_delete_chat, if_neg (by simp [hs]), if_neg (by simp [ho]), hdec]
  split
  · rename_i heq
    exact absurd heq (by simp)
  · rename_i chat heq
    obtain rfl : c = chat := by injection heq
    rw [if_neg (by simp [hini]), if_pos (by simp [hpart])]

theorem send_success_is_participant
    (fpa : Fpa) (rentMin : Nat → Nat) (pid : Key) (sender ca ma : AccountInfo)
    (ed : List Nat) (epk : Key) (ts ex : Int) (c : Chat)
    (hs : sender.is_signer = true) (hlen : ed.length ≤ MAX_MESSAGE_SIZE)
    (ho : ca.owner = pid) (hdec : chatTryFromSlice ca.data = some c)
    (hini : c.is_initialized = true) (hp2 : c.participant2 ≠ zeroKey)
    (hres : (process_send_message fpa rentMin pid sender ca ma ed epk ts ex).1 = none) :
    c.participant1 = sender.key ∨ c.participant2 = sender.key := by
  by_contra hcon
  push_neg at hcon
  rw [send_not_participant_fails fpa rentMin pid sender ca ma ed epk ts ex c
    hs hlen ho hdec hini hp2 hcon.1 hcon.2] at hres
  exact Option.noConfusion hres

theorem delete_chat_success_is_participant
    (pid : Key) (participant ca : AccountInfo) (c : Chat)
    (hs : participant.is_signer = true) (ho : ca.owner = pid)
    (hdec : chatTryFromSlice ca.data = some c) (hini : c.is_initialized = true)
    (hres : (process_delete_chat pid participant ca).1 = none) :
    c.participant1 = participant.key ∨ c.participant2 = participant.key := by
  by_contra hcon
  push_neg at hcon
  rw [delete_chat_not_participant_fails pid participant ca c
    hs ho hdec hini hcon.1 hcon.2] at hres
  exact Option.noConfusion hres

/-- C4: on an initialized chat whose `participant2` is already established
(nonzero), a SendMessage or DeleteChat signed by a key that is neither
participant fails with `NotAuthorized`; conversely, whenever either
operation succeeds, the signer is one of the two participants. -/
theorem send_delete_require_participant :
    (∀ (fpa : Fpa) (rentMin : Nat → Nat) (pid : Key) (sender ca ma : AccountInfo)
      (ed : List Nat) (epk : Key) (ts ex : Int) (c : Chat),
      sender.is_signer = true → ed.length ≤ MAX_MESSAGE_SIZE →
      ca.owner = pid → chatTryFromSlice ca.data = some c →
      c.is_initialized = true → c.participant2 ≠ zeroKey →
      c.participant1 ≠ sender.key → c.participant2 ≠ sender.key →
      (process_send_message fpa rentMin pid sender ca ma ed epk ts ex).1 =
        some (ProgErr.Custom WhisperChainError.NotAuthorized)) ∧
    (∀ (pid : Key) (participant ca : AccountInfo) (c : Chat),
      participant.is_signer = true → ca.owner = pid →
      chatTryFromSlice ca.data = some c → c.is_initialized = true →
      c.participant1 ≠ participant.key → c.participant2 ≠ participant.key →
      (process_delete_chat pid participant ca).1 =
        some (ProgErr.Custom WhisperChainError.NotAuthorized)) ∧
    (∀ (fpa : Fpa) (rentMin : Nat → Nat) (pid : Key) (sender ca ma : AccountInfo)
      (ed : List Nat) (epk : Key) (ts ex : Int) (c : Chat),
      sender.is_signer = true → ed.length ≤ MAX_MESSAGE_SIZE →
      ca.owner = pid → chatTryFromSlice ca.data = some c →
      c.is_initialized = true → c.participant2 ≠ zeroKey →
      (process_send_message fpa rentMin pid sender ca ma ed epk ts ex).1 = none →
      c.participant1 = sender.key ∨ c.participant2 = sender.key) ∧
    (∀ (pid : Key) (participant ca : AccountInfo) (c : Chat),
      participant.is_signer = true → ca.owner = pid →
      chatTryFromSlice ca.data = some c → c.is_initialized = true →
      (process_delete_chat pid participant ca).1 = none →
      c.participant1 = participant.key ∨ c.participant2 = participant.key) :=
  ⟨fun fpa rentMin pid sender ca ma ed epk ts ex c hs hlen ho hdec hini hp2 h1 h2 =>
      send_not_participant_fails fpa rentMin pid sender ca ma ed epk ts ex c
        hs hlen ho hdec hini hp2 h1 h2,
   fun pid participant ca c hs ho hdec hini h1 h2 =>
      delete_chat_not_participant_fails pid participant ca c hs ho hdec hini h1 h2,
   fun fpa rentMin pid sender ca ma ed epk ts ex c hs hlen ho hdec hini hp2 hres =>
      send_success_is_participant fpa rentMin pid sender ca ma ed epk ts ex c
        hs hlen ho hdec hini hp2 hres,
   fun pid participant ca c hs ho hdec hini hres =>
      delete_chat_success_is_participant pid participant ca c hs ho hdec hini hres⟩

def wEstablishedChat : Chat :=
  { is_initialized := true, participant1 := wKeyA, participant2 := wKeyB,
    participant1_public_key := wKeyA, participant2_public_key := wKeyB,
    created_at := 1, message_count := 0, last_message_at := 0 }

def wEstChatAcc : AccountInfo :=
  { key := zeroKey, owner := wPid, is_signer := false, lamports := 2,
    data := chatSerialize wEstablishedChat }

def wSenderA : AccountInfo :=
  { key := wKeyA, owner := wKeyA, is_signer := true, lamports := 3, data := [] }

def wSenderC : AccountInfo :=
  { key := wKeyC, owner := wKeyC, is_signer := true, lamports := 3, data := [] }

def wFreshMsgAcc : AccountInfo :=
  { key := zeroKey, owner := zeroKey, is_signer := false, lamports := 0, data := [] }

set_option maxRecDepth 400000 in
theorem send_delete_require_participant_witness :
    (process_send_message wFpa wRent wPid wSenderC wEstChatAcc wFreshMsgAcc
        [7] wKeyC 11 0).1 = some (ProgErr.Custom WhisperChainError.NotAuthorized) ∧
    (process_delete_chat wPid wSenderC wEstChatAcc).1 =
      some (ProgErr.Custom WhisperChainError.NotAuthorized) ∧
    (wEstablishedChat.participant1 = wSenderA.key ∨
      wEstablishedChat.participant2 = wSenderA.key) ∧
    (wEstablishedChat.participant1 = wSenderA.key ∨
      wEstablishedChat.participant2 = wSenderA.key) :=
  ⟨send_delete_require_participant.1 wFpa wRent wPid wSenderC wEstChatAcc
      wFreshMsgAcc [7] wKeyC 11 0 wEstablishedChat rfl (by decide) rfl
      (chatRoundTrip (by decide)) rfl (by decide) (by decide) (by decide),
   send_delete_require_participant.2.1 wPid wSenderC wEstChatAcc wEstablishedChat
      rfl rfl (chatRoundTrip (by decide)) rfl (by decide) (by decide),
   send_delete_require_participant.2.2.1 wFpa wRent wPid wSenderA wEstChatAcc
      wFreshMsgAcc [7] wKeyA 11 0 wEstablishedChat rfl (by decide) rfl
      (chatRoundTrip (by decide)) rfl (by decide) (by decide),
   send_delete_require_participant.2.2.2 wPid wSenderA wEstChatAcc wEstablishedChat
      rfl rfl (chatRoundTrip (by decide)) rfl (by decide)⟩

/-! ### C3: an error leaves every account untouched -/

theorem serializeInto_fits {enc buf : List Nat} (h : enc.length ≤ buf.length) :
    serializeInto enc buf = some (enc ++ buf.drop enc.length) := by
  rw [serializeInto, if_pos h]

theorem createAccount_some {payer target : AccountInfo} {lam spc : Nat} {ow : Key}
    {p t : AccountInfo} (h : createAccount payer target lam spc ow = some (p, t)) :
    p = { payer with lamports := payer.lamports - lam } ∧
    t = { target with owner := ow, lamports := lam,
                      data := List.replicate spc 0 } := by
  rw [createAccount] at h
  split_ifs at h
  simp only [Option.some.injEq, Prod.mk.injEq] at h
  exact ⟨h.1.symm, h.2.symm⟩

theorem initialize_chat_error_frame
    (fpa : Fpa) (rentMin : Nat → Nat) (pid : Key) (now : Int)
    (ini ca : AccountInfo) (pk : Key) (e : ProgErr)
    (h : (process_initialize_chat fpa rentMin pid now ini ca pk).1 = some e) :
    (process_initialize_chat fpa rentMin pid now ini ca pk).2 = (ini, ca) := by
  rw [process_initialize_chat] at h ⊢
  dsimp only at h ⊢
  split_ifs at h ⊢
  all_goals try rfl
  case _ =>
    cases hca : createAccount ini ca (rentMin Chat.LEN) Chat.LEN pid with
    | none => rfl
    | some pr =>
      obtain ⟨ini2, ca2⟩ := pr
      rw [hca] at h
      dsimp only at h
      have hdata : ca2.data = List.replicate Chat.LEN 0 := by
        rw [(createAccount_some hca).2]
      rw [serializeInto_fits (by simp [chatSerialize_length, hdata])] at h
      simp at h

theorem delete_chat_error_frame (pid : Key) (participant ca : AccountInfo) (e : ProgErr)
    (h : (process_delete_chat pid participant ca).1 = some e) :
    (process_delete_chat pid participant ca).2 = (participant, ca) := by
  rw [process_delete_chat] at h ⊢
  cases hdec : chatTryFromSlice ca.data with
  | none =>
    rw [hdec] at h
    dsimp only at h ⊢
    split_ifs at h ⊢
    all_goals rfl
  | some c =>
    rw [hdec] at h
    dsimp only at h ⊢
    split_ifs at h ⊢
    all_goals rfl

theorem delete_message_error_frame (pid : Key) (now : Int)
    (sender ma ca : AccountInfo) (e : ProgErr)
    (h : (process_delete_message pid now sender ma ca).1 = some e) :
    (process_delete_message pid now sender ma ca).2 = (sender, ma, ca) := by
  rw [process_delete_message] at h ⊢
  cases hdec : messageTryFromSlice ma.data with
  | none =>
    rw [hdec] at h
    dsimp only at h ⊢
    split_ifs at h ⊢
    all_goals rfl
  | some m =>
    rw [hdec] at h
    dsimp only at h ⊢
    split_ifs at h ⊢
    all_goals rfl

theorem send_message_error_frame
    (fpa : Fpa) (rentMin : Nat → Nat) (pid : Key) (sender ca ma : AccountInfo)
    (ed : List Nat) (epk : Key) (ts ex : Int) (e : ProgErr)
    (h : (process_send_message fpa rentMin pid sender ca ma ed epk ts ex).1 = some e) :
    (process_send_message fpa rentMin pid sender ca ma ed epk ts ex).2 =
      (sender, ca, ma) := by
  rw [process_send_message] at h ⊢
  cases hdec : chatTryFromSlice ca.data with
  | none =>
    rw [hdec] at h
    dsimp only at h ⊢
    split_ifs at h ⊢
    all_goals rfl
  | some chat0 =>
    rw [hdec] at h
    dsimp only at h ⊢
    split_ifs at h ⊢
    all_goals try rfl
    all_goals dsimp only at h ⊢
    all_goals try split_ifs at h ⊢
    all_goals try rfl
    all_goals
      cases hca : createAccount sender ma (rentMin (Message.space ed.length))
          (Message.space ed.length) pid with
      | none => rfl
      | some pr =>
        obtain ⟨sender2, ma2⟩ := pr
        rw [hca] at h
        dsimp only at h
        have hdata2 : ma2.data = List.replicate (Message.space ed.length) 0 := by
          rw [(createAccount_some hca).2]
        rw [serializeInto_fits (by simp [messageSerialize_length, hdata2])] at h
        dsimp only at h
        have hclen : ca.data.length = Chat.LEN := chatTryFromSlice_length hdec
        rw [serializeInto_fits (by simp [chatSerialize_length, hclen])] at h
        simp at h

def wNonSigner : AccountInfo :=
  { key := wKeyC, owner := wKeyC, is_signer := false, lamports := 0, data := [] }

/-- C3: whenever one of the four operations returns an error, every account
it was handed is returned exactly as supplied — no storage byte and no
lamport balance differs from its value before the call. -/
theorem error_implies_no_state_mutation :
    (∀ (fpa : Fpa) (rentMin : Nat → Nat) (pid : Key) (now : Int)
      (ini ca : AccountInfo) (pk : Key) (e : ProgErr),
      (process_initialize_chat fpa rentMin pid now ini ca pk).1 = some e →
      (process_initialize_chat fpa rentMin pid now ini ca pk).2 = (ini, ca)) ∧
    (∀ (fpa : Fpa) (rentMin : Nat → Nat) (pid : Key) (sender ca ma : AccountInfo)
      (ed : List Nat) (epk : Key) (ts ex : Int) (e : ProgErr),
      (process_send_message fpa rentMin pid sender ca ma ed epk ts ex).1 = some e →
      (process_send_message fpa rentMin pid sender ca ma ed epk ts ex).2 =
        (sender, ca, ma)) ∧
    (∀ (pid : Key) (participant ca : AccountInfo) (e : ProgErr),
      (process_delete_chat pid participant ca).1 = some e →
      (process_delete_chat pid participant ca).2 = (participant, ca)) ∧
    (∀ (pid : Key) (now : Int) (sender ma ca : AccountInfo) (e : ProgErr),
      (process_delete_message pid now sender ma ca).1 = some e →
      (process_delete_message pid now sender ma ca).2 = (sender, ma, ca)) :=
  ⟨fun fpa rentMin pid now ini ca pk e h =>
      initialize_chat_error_frame fpa rentMin pid now ini ca pk e h,
   fun fpa rentMin pid sender ca ma ed epk ts ex e h =>
      send_message_error_frame fpa rentMin pid sender ca ma ed epk ts ex e h,
   fun pid participant ca e h => delete_chat_error_frame pid participant ca e h,
   fun pid now sender ma ca e h => delete_message_error_frame pid now sender ma ca e h⟩

theorem error_implies_no_state_mutation_witness :
    (process_initialize_chat wFpa wRent wPid 0 wNonSigner wFreshMsgAcc wKeyA).2 =
      (wNonSigner, wFreshMsgAcc) ∧
    (process_send_message wFpa wRent wPid wNonSigner wEstChatAcc wFreshMsgAcc
        [] wKeyA 0 0).2 = (wNonSigner, wEstChatAcc, wFreshMsgAcc) ∧
    (process_delete_chat wPid wNonSigner wEstChatAcc).2 = (wNonSigner, wEstChatAcc) ∧
    (process_delete_message wPid 0 wNonSigner wFreshMsgAcc wEstChatAcc).2 =
      (wNonSigner, wFreshMsgAcc, wEstChatAcc) :=
  ⟨error_implies_no_state_mutation.1 wFpa wRent wPid 0 wNonSigner wFreshMsgAcc wKeyA
      ProgErr.MissingRequiredSignature rfl,
   error_implies_no_state_mutation.2.1 wFpa wRent wPid wNonSigner wEstChatAcc
      wFreshMsgAcc [] wKeyA 0 0 ProgErr.MissingRequiredSignature rfl,
   error_implies_no_state_mutation.2.2.1 wPid wNonSigner wEstChatAcc
      ProgErr.MissingRequiredSignature rfl,
   error_implies_no_state_mutation.2.2.2 wPid 0 wNonSigner wFreshMsgAcc wEstChatAcc
      ProgErr.MissingRequiredSignature rfl⟩

/-! ### The shape of a successful SendMessage -/

theorem send_message_success_shape
    (fpa : Fpa) (rentMin : Nat → Nat) (pid : Key) (sender ca ma : AccountInfo)
    (ed : List Nat) (epk : Key) (ts ex : Int) (chat0 : Chat)
    (hdec : chatTryFromSlice ca.data = some chat0)
    (hres : (process_send_message fpa rentMin pid sender ca ma ed epk ts ex).1 = none) :
    ∃ chat1 : Chat,
      chat1.message_count = chat0.message_count ∧
      chat1.is_initialized = chat0.is_initialized ∧
      (chat0.participant2 ≠ zeroKey → chat1.participant2 = chat0.participant2) ∧
      (process_send_message fpa rentMin pid sender ca ma ed epk ts ex).2.2.1 =
        { ca with
          data := chatSerialize ({ chat1 with
                    message_count := (chat1.message_count + 1) % 2 ^ 64,
                    last_message_at := ts }) } ∧
      messageTryFromSlice
          (process_send_message fpa rentMin pid sender ca ma ed epk ts ex).2.2.2.data =
        some { is_initialized := true, chat := ca.key, sender := sender.key,
               index := wrapU64 chat0.message_count, timestamp := wrapI64 ts,
               expires_at := wrapI64 ex, ephemeral_public_key := epk,
               encrypted_data := ed } := by
  rw [process_send_message] at hres ⊢
  by_cases h1 : ¬ sender.is_signer
  · rw [if_pos h1] at hres
    exact absurd hres (by simp)
  · rw [if_neg h1] at hres ⊢
    by_cases h2 : ed.length > MAX_MESSAGE_SIZE
    · rw [if_pos h2] at hres
      exact absurd hres (by simp)
    · rw [if_neg h2] at hres ⊢
      have hlen512 : ed.length < 2 ^ 32 := by
        rw [MAX_MESSAGE_SIZE] at h2
        omega
      by_cases h3 : ca.owner ≠ pid
      · rw [if_pos h3] at hres
        exact absurd hres (by simp)
      · rw [if_neg h3] at hres ⊢
        rw [hdec] at hres ⊢
        dsimp only at hres ⊢
        by_cases h4 : ¬ chat0.is_initialized
        · rw [if_pos h4] at hres
          exact absurd hres (by simp)
        · rw [if_neg h4] at hres ⊢
          have hclen : ca.data.length = Chat.LEN := chatTryFromSlice_length hdec
          by_cases h5 : chat0.participant2 = zeroKey ∧ chat0.participant1 ≠ sender.key
          · rw [if_pos h5] at hres ⊢
            dsimp only at hres ⊢
            by_cases h7 : (fpa [messageSeed, ca.key.val,
                natToLE 8 chat0.message_count] pid).1 ≠ ma.key
            · rw [if_pos h7] at hres
              exact absurd hres (by simp)
            · rw [if_neg h7] at hres ⊢
              cases hca : createAccount sender ma (rentMin (Message.space ed.length))
                  (Message.space ed.length) pid with
              | none =>
                rw [hca] at hres
                exact absurd hres (by simp)
              | some pr =>
                obtain ⟨sender2, ma2⟩ := pr
                rw [hca] at hres
                dsimp only at hres ⊢
                have hdata2 : ma2.data = List.replicate (Message.space ed.length) 0 := by
                  rw [(createAccount_some hca).2]
                rw [serializeInto_fits (by simp [messageSerialize_length, hdata2])]
                  at hres ⊢
                dsimp only at hres ⊢
                rw [serializeInto_fits (by simp [chatSerialize_length, hclen])] at hres ⊢
                dsimp only at hres ⊢
                refine ⟨{ chat0 with participant2 := sender.key, participant2_public_key := epk }, rfl, rfl, ?_, ?_, ?_⟩
                · intro hne
                  exact absurd h5.1 hne
                · have hdra : ∀ c : Chat,
                      ca.data.drop (chatSerialize c).length = [] := fun c => by
                    rw [chatSerialize_length]
                    exact List.drop_eq_nil_of_le (by rw [hclen])
                  rw [hdra, List.append_nil]
                · have hmd : ∀ m : Message, m.encrypted_data.length = ed.length →
                      (List.replicate (Message.space ed.length) 0).drop
                        (messageSerialize m).length = [] := fun m hm => by
                    rw [messageSerialize_length, hm]
                    simp [List.drop_replicate]
                  rw [hdata2, hmd _ rfl, List.append_nil,
                    messageTryFromSlice_messageSerialize _ hlen512]
                  rfl
          · rw [if_neg h5] at hres ⊢
            by_cases h6 : chat0.is_participant sender.key
            · rw [if_pos h6] at hres ⊢
              dsimp only at hres ⊢
              by_cases h7 : (fpa [messageSeed, ca.key.val,
                  natToLE 8 chat0.message_count] pid).1 ≠ ma.key
              · rw [if_pos h7] at hres
                exact absurd hres (by simp)
              · rw [if_neg h7] at hres ⊢
                cases hca : createAccount sender ma (rentMin (Message.space ed.length))
                    (Message.space ed.length) pid with
                | none =>
                  rw [hca] at hres
                  exact absurd hres (by simp)
                | some pr =>
                  obtain ⟨sender2, ma2⟩ := pr
                  rw [hca] at hres
                  dsimp only at hres ⊢
                  have hdata2 : ma2.data =
                      List.replicate (Message.space ed.length) 0 := by
                    rw [(createAccount_some hca).2]
                  rw [serializeInto_fits (by simp [messageSerialize_length, hdata2])]
                    at hres ⊢
                  dsimp only at hres ⊢
                  rw [serializeInto_fits (by simp [chatSerialize_length, hclen])]
                    at hres ⊢
                  dsimp only at hres ⊢
                  refine ⟨chat0, rfl, rfl, fun _ => rfl, ?_, ?_⟩
                  · have hdra : ∀ c : Chat,
                        ca.data.drop (chatSerialize c).length = [] := fun c => by
                      rw [chatSerialize_length]
                      exact List.drop_eq_nil_of_le (by rw [hclen])
                    rw [hdra, List.append_nil]
                  · have hmd : ∀ m : Message, m.encrypted_data.length = ed.length →
                        (List.replicate (Message.space ed.length) 0).drop
                          (messageSerialize m).length = [] := fun m hm => by
                      rw [messageSerialize_length, hm]
                      simp [List.drop_replicate]
                    rw [hdata2, hmd _ rfl, List.append_nil,
                      messageTryFromSlice_messageSerialize _ hlen512]
                    rfl
            · rw [if_neg h6] at hres
              exact absurd hres (by simp)

/-! ### C5 / C2: the message_count increment -/

/-- C5 (amended): on every successful SendMessage against a chat whose
`participant2` is already established (nonzero), the re-decoded chat record
keeps `participant2` unchanged, and `message_count` advances by exactly 1
modulo 2^64 — hence by exactly 1 whenever it was below `u64::MAX`. -/
theorem send_message_participant2_immutable_count_mod
    (fpa : Fpa) (rentMin : Nat → Nat) (pid : Key) (sender ca ma : AccountInfo)
    (ed : List Nat) (epk : Key) (ts ex : Int) (c : Chat)
    (hdec : chatTryFromSlice ca.data = some c) (hp2 : c.participant2 ≠ zeroKey)
    (hres : (process_send_message fpa rentMin pid sender ca ma ed epk ts ex).1 = none) :
    ∃ c' : Chat,
      chatTryFromSlice
          (process_send_message fpa rentMin pid sender ca ma ed epk ts ex).2.2.1.data =
        some c' ∧
      c'.participant2 = c.participant2 ∧
      c'.message_count = (c.message_count + 1) % 2 ^ 64 := by
  obtain ⟨chat1, hmc, hini, hp2p, hca', hmsg⟩ :=
    send_message_success_shape fpa rentMin pid sender ca ma ed epk ts ex c hdec hres
  refine ⟨chatWrap ({ chat1 with
      message_count := (chat1.message_count + 1) % 2 ^ 64,
      last_message_at := ts }), ?_, ?_, ?_⟩
  · rw [hca']
    exact chatTryFromSlice_chatSerialize _
  · have h2 : chat1.participant2 = c.participant2 := hp2p hp2
    simpa [chatWrap] using h2
  · simp only [chatWrap, wrapU64]
    omega

set_option maxRecDepth 1000000 in
theorem send_message_participant2_immutable_count_mod_witness :
    ∃ c' : Chat,
      chatTryFromSlice
          (process_send_message wFpa wRent wPid wSenderA wEstChatAcc wFreshMsgAcc
            [1, 2] wKeyA 42 0).2.2.1.data = some c' ∧
      c'.participant2 = wEstablishedChat.participant2 ∧
      c'.message_count = (wEstablishedChat.message_count + 1) % 2 ^ 64 :=
  send_message_participant2_immutable_count_mod wFpa wRent wPid wSenderA
    wEstChatAcc wFreshMsgAcc [1, 2] wKeyA 42 0 wEstablishedChat
    (chatRoundTrip (by decide)) (by decide) (by decide)

def wMaxChat : Chat :=
  { is_initialized := true, participant1 := wKeyA, participant2 := wKeyB,
    participant1_public_key := wKeyA, participant2_public_key := wKeyB,
    created_at := 0, message_count := 2 ^ 64 - 1, last_message_at := 0 }

def wMaxChatAcc : AccountInfo :=
  { key := zeroKey, owner := wPid, is_signer := false, lamports := 1,
    data := chatSerialize wMaxChat }

set_option maxRecDepth 1000000 in
/-- C5 counterexample: a fully valid send against a chat whose
`message_count` is `u64::MAX` succeeds, and the stored count afterwards is 0,
not `message_count + 1`. -/
theorem send_message_count_increment_cex :
    (process_send_message wFpa wRent wPid wSenderA wMaxChatAcc wFreshMsgAcc
        [3] wKeyA 8 0).1 = none ∧
    ∃ c' : Chat,
      chatTryFromSlice (process_send_message wFpa wRent wPid wSenderA wMaxChatAcc
          wFreshMsgAcc [3] wKeyA 8 0).2.2.1.data = some c' ∧
      c'.message_count ≠ wMaxChat.message_count + 1 := by
  refine ⟨by decide, { wMaxChat with message_count := 0, last_message_at := 8 },
    by decide, by decide⟩

set_option maxRecDepth 1000000 in
/-- C2 (evaluation of the code at the failing input): with `message_count`
at `u64::MAX` and an otherwise valid call, SendMessage returns success — not
an error — and the chat account's stored count wraps around to 0: the code
increments with an unchecked `+=`. -/
theorem send_message_wraps_at_u64_max :
    (process_send_message wFpa wRent wPid wSenderA wMaxChatAcc wFreshMsgAcc
        [] wKeyA 7 0).1 = none ∧
    ∃ c' : Chat,
      chatTryFromSlice (process_send_message wFpa wRent wPid wSenderA wMaxChatAcc
          wFreshMsgAcc [] wKeyA 7 0).2.2.1.data = some c' ∧
      c'.message_count = 0 := by
  refine ⟨by decide, { wMaxChat with message_count := 0, last_message_at := 7 },
    by decide, rfl⟩

/-! ### C10: DeleteMessage ignores the chat account's state -/

/-- C10: DeleteMessage checks the supplied chat account only by comparing
the stored `message.chat` identifier with that account's address — there is
no ownership or initialization check on it.  With a signing sender equal to
the stored sender and an initialized message, the call succeeds for an
arbitrary chat account (zeroed storage, any owner, any balance): the message
storage is zeroed, its deposit is credited to the sender, and the chat
account is returned untouched. -/
theorem delete_message_ignores_chat_state
    (pid : Key) (now : Int) (sender ma ca : AccountInfo) (m : Message)
    (hs : sender.is_signer = true) (ho : ma.owner = pid)
    (hdec : messageTryFromSlice ma.data = some m) (hini : m.is_initialized = true)
    (hchat : m.chat = ca.key) (hsender : m.sender = sender.key)
    (hover : sender.lamports + ma.lamports < 2 ^ 64) :
    process_delete_message pid now sender ma ca =
      (none,
       { sender with lamports := sender.lamports + ma.lamports },
       { ma with lamports := 0, data := List.replicate ma.data.length 0 },
       ca) := by
  rw [process_delete_message, if_neg (by simp [hs]), if_neg (by simp [ho]), hdec]
  split
  · rename_i heq
    exact absurd heq (by simp)
  · rename_i m2 heq
    obtain rfl : m = m2 := by injection heq
    rw [if_neg (by simp [hini]), if_neg (by simp [hchat]), if_neg (by simp [hsender])]
    rw [if_neg (by omega)]

def wStoredMessage : Message :=
  { is_initialized := true, chat := wKeyB, sender := wKeyA, index := 0,
    timestamp := 5, expires_at := 0, ephemeral_public_key := wKeyC,
    encrypted_data := [9] }

def wStoredMsgAcc : AccountInfo :=
  { key := wKeyC, owner := wPid, is_signer := false, lamports := 7,
    data := messageSerialize wStoredMessage }

def wDeadChatAcc : AccountInfo :=
  { key := wKeyB, owner := zeroKey, is_signer := false, lamports := 0, data := [] }

set_option maxRecDepth 200000 in
theorem delete_message_ignores_chat_state_witness :
    process_delete_message wPid 0 wSenderA wStoredMsgAcc wDeadChatAcc =
      (none,
       { wSenderA with lamports := wSenderA.lamports + wStoredMsgAcc.lamports },
       { wStoredMsgAcc with lamports := 0,
                            data := List.replicate wStoredMsgAcc.data.length 0 },
       wDeadChatAcc) :=
  delete_message_ignores_chat_state wPid 0 wSenderA wStoredMsgAcc wDeadChatAcc
    wStoredMessage rfl rfl (messageRoundTrip (by decide)) rfl (by decide)
    (by decide) (by decide)

/-! ### C1: counts and indices across InitializeChat and N sends -/

theorem initialize_chat_success_shape
    (fpa : Fpa) (rentMin : Nat → Nat) (pid : Key) (now : Int)
    (ini ca : AccountInfo) (pk : Key)
    (hres : (process_initialize_chat fpa rentMin pid now ini ca pk).1 = none) :
    chatTryFromSlice (process_initialize_chat fpa rentMin pid now ini ca pk).2.2.data =
      some (chatWrap ({ is_initialized := true, participant1 := ini.key,
                        participant2 := zeroKey, participant1_public_key := pk,
                        participant2_public_key := zeroKey, created_at := now,
                        message_count := 0, last_message_at := 0 })) := by
  rw [process_initialize_chat] at hres ⊢
  by_cases h1 : ¬ ini.is_signer
  · rw [if_pos h1] at hres
    exact absurd hres (by simp)
  · rw [if_neg h1] at hres ⊢
    dsimp only at hres ⊢
    by_cases h2 : (fpa [chatSeed, ini.key.val] pid).1 ≠ ca.key
    · rw [if_pos h2] at hres
      exact absurd hres (by simp)
    · rw [if_neg h2] at hres ⊢
      cases hca : createAccount ini ca (rentMin Chat.LEN) Chat.LEN pid with
      | none =>
        rw [hca] at hres
        exact absurd hres (by simp)
      | some pr =>
        obtain ⟨ini2, ca2⟩ := pr
        rw [hca] at hres
        dsimp only at hres ⊢
        have hdata : ca2.data = List.replicate Chat.LEN 0 := by
          rw [(createAccount_some hca).2]
        rw [serializeInto_fits (by simp [chatSerialize_length, hdata])] at hres ⊢
        dsimp only
        have hdr : ∀ c : Chat, ca2.data.drop (chatSerialize c).length = [] := fun c => by
          rw [chatSerialize_length, hdata]
          simp
        rw [hdr, List.append_nil]
        exact chatTryFromSlice_chatSerialize _

theorem runSends_messages_indexed (fpa : Fpa) (rentMin : Nat → Nat) (pid : Key) :
    ∀ (args : List SendArgs) (ca : AccountInfo) (c : Chat)
      (out : AccountInfo × List AccountInfo),
      runSends fpa rentMin pid ca args = some out →
      chatTryFromSlice ca.data = some c →
      c.message_count + args.length < 2 ^ 64 →
      out.2.length = args.length ∧
      (∃ cf : Chat, chatTryFromSlice out.1.data = some cf ∧
        cf.message_count = c.message_count + args.length) ∧
      (∀ i (hi : i < out.2.length), ∃ m : Message,
        messageTryFromSlice (out.2.get ⟨i, hi⟩).data = some m ∧
        m.index = c.message_count + i) := by
  intro args
  induction args with
  | nil =>
    intro ca c out hrun hdec hbound
    rw [runSends] at hrun
    simp only [Option.some.injEq] at hrun
    subst hrun
    refine ⟨rfl, ⟨c, hdec, by simp⟩, ?_⟩
    intro i hi
    simp at hi
  | cons a rest ih =>
    intro ca c out hrun hdec hbound
    rw [runSends] at hrun
    rcases hstep : process_send_message fpa rentMin pid a.sender ca a.message_account
        a.encrypted_data a.ephemeral_public_key a.timestamp a.expires_at with
      ⟨err, s2, ca2, ma1⟩
    rw [hstep] at hrun
    cases err with
    | some e =>
      exact absurd hrun (by simp)
    | none =>
      dsimp only at hrun
      cases hrun2 : runSends fpa rentMin pid ca2 rest with
      | none =>
        rw [hrun2] at hrun
        exact absurd hrun (by simp)
      | some pr =>
        obtain ⟨caf, mas⟩ := pr
        rw [hrun2] at hrun
        simp only [Option.some.injEq] at hrun
        subst hrun
        have hres1 : (process_send_message fpa rentMin pid a.sender ca
            a.message_account a.encrypted_data a.ephemeral_public_key
            a.timestamp a.expires_at).1 = none := by
          rw [hstep]
        obtain ⟨chat1, hmc, hini1, hp2p, hca', hmsg⟩ :=
          send_message_success_shape fpa rentMin pid a.sender ca a.message_account
            a.encrypted_data a.ephemeral_public_key a.timestamp a.expires_at c
            hdec hres1
        have hca2 : ca2 = { ca with
            data := chatSerialize ({ chat1 with
              message_count := (chat1.message_count + 1) % 2 ^ 64,
              last_message_at := a.timestamp }) } := by
          rw [← hca', hstep]
        have hdec2 : chatTryFromSlice ca2.data =
            some (chatWrap ({ chat1 with
              message_count := (chat1.message_count + 1) % 2 ^ 64,
              last_message_at := a.timestamp })) := by
          rw [hca2]
          exact chatTryFromSlice_chatSerialize _
        have hcount2 : (chatWrap ({ chat1 with
            message_count := (chat1.message_count + 1) % 2 ^ 64,
            last_message_at := a.timestamp })).message_count =
            c.message_count + 1 := by
          simp only [chatWrap, wrapU64]
          simp only [List.length_cons] at hbound
          omega
        have hbound2 : (chatWrap ({ chat1 with
            message_count := (chat1.message_count + 1) % 2 ^ 64,
            last_message_at := a.timestamp })).message_count + rest.length <
            2 ^ 64 := by
          rw [hcount2]
          simp only [List.length_cons] at hbound
          omega
        obtain ⟨hlen, ⟨cf, hcf, hcfc⟩, hidx⟩ := ih ca2 _ (caf, mas) hrun2 hdec2 hbound2
        rw [hcount2] at hcfc
        have hma1 : ma1 = (process_send_message fpa rentMin pid a.sender ca
            a.message_account a.encrypted_data a.ephemeral_public_key
            a.timestamp a.expires_at).2.2.2 := by
          rw [hstep]
        refine ⟨by simpa using hlen, ⟨cf, hcf, by
          rw [hcfc]
          simp only [List.length_cons]
          omega⟩, ?_⟩
        intro i hi
        cases i with
        | zero =>
          refine ⟨{ is_initialized := true, chat := ca.key, sender := a.sender.key,
                    index := wrapU64 c.message_count, timestamp := wrapI64 a.timestamp,
                    expires_at := wrapI64 a.expires_at,
                    ephemeral_public_key := a.ephemeral_public_key,
                    encrypted_data := a.encrypted_data }, ?_, ?_⟩
          · show messageTryFromSlice ((ma1 :: mas).get ⟨0, hi⟩).data = _
            rw [show ((ma1 :: mas).get ⟨0, hi⟩) = ma1 from rfl, hma1]
            exact hmsg
          · show wrapU64 c.message_count = c.message_count + 0
            simp only [List.length_cons] at hbound
            simp only [wrapU64]
            omega
        | succ j =>
          have hj : j < mas.length := by
            simp only [List.length_cons] at hi
            omega
          obtain ⟨m, hm, hmi⟩ := hidx j hj
          refine ⟨m, ?_, ?_⟩
          · rw [show ((ma1 :: mas).get ⟨j + 1, hi⟩) = mas.get ⟨j, hj⟩ from rfl]
            exact hm
          · rw [hmi, hcount2]
            omega

/-- C1: for every chat created by a successful InitializeChat followed by N
successful SendMessage calls (N below 2^64, the only counts a u64 can
reach), the stored `chat.message_count` equals N afterwards, and the Message
record written by the i-th successful send carries `index = i` — the index
taken from `chat.message_count` before its increment. -/
theorem chat_message_count_after_sends
    (fpa : Fpa) (rentMin : Nat → Nat) (pid : Key) (now : Int)
    (ini ca0 : AccountInfo) (pk : Key) (args : List SendArgs)
    (out : AccountInfo × List AccountInfo)
    (hinit : (process_initialize_chat fpa rentMin pid now ini ca0 pk).1 = none)
    (hrun : runSends fpa rentMin pid
        (process_initialize_chat fpa rentMin pid now ini ca0 pk).2.2 args = some out)
    (hN : args.length < 2 ^ 64) :
    out.2.length = args.length ∧
    (∃ cf : Chat, chatTryFromSlice out.1.data = some cf ∧
      cf.message_count = args.length) ∧
    (∀ i (hi : i < out.2.length), ∃ m : Message,
      messageTryFromSlice (out.2.get ⟨i, hi⟩).data = some m ∧ m.index = i) := by
  have hdec := initialize_chat_success_shape fpa rentMin pid now ini ca0 pk hinit
  have hcount0 : (chatWrap ({ is_initialized := true, participant1 := ini.key,
                              participant2 := zeroKey, participant1_public_key := pk,
                              participant2_public_key := zeroKey, created_at := now,
                              message_count := 0, last_message_at := 0 })).message_count = 0 := by
    simp [chatWrap, wrapU64]
  obtain ⟨hlen, ⟨cf, hcf, hcfc⟩, hidx⟩ :=
    runSends_messages_indexed fpa rentMin pid args _ _ out hrun hdec
      (by rw [hcount0]; omega)
  refine ⟨hlen, ⟨cf, hcf, by rw [hcfc, hcount0]; omega⟩, ?_⟩
  intro i hi
  obtain ⟨m, hm, hmi⟩ := hidx i hi
  exact ⟨m, hm, by rw [hmi, hcount0]; omega⟩

def wChatPdaAcc : AccountInfo :=
  { key := zeroKey, owner := zeroKey, is_signer := false, lamports := 0, data := [] }

def wSenderB : AccountInfo :=
  { key := wKeyB, owner := wKeyB, is_signer := true, lamports := 5, data := [] }

def wArgs2 : List SendArgs :=
  [{ sender := wSenderA, message_account := wFreshMsgAcc, encrypted_data := [7, 8],
     ephemeral_public_key := wKeyA, timestamp := 123, expires_at := 0 },
   { sender := wSenderB, message_account := wFreshMsgAcc, encrypted_data := [],
     ephemeral_public_key := wKeyB, timestamp := 124, expires_at := -3 }]

def wRunOut : AccountInfo × List AccountInfo :=
  (runSends wFpa wRent wPid
    (process_initialize_chat wFpa wRent wPid 0 wSenderA wChatPdaAcc wKeyA).2.2
    wArgs2).getD (wFreshMsgAcc, [])

set_option maxRecDepth 1000000 in
theorem chat_message_count_after_sends_witness :
    wRunOut.2.length = wArgs2.length ∧
    (∃ cf : Chat, chatTryFromSlice wRunOut.1.data = some cf ∧
      cf.message_count = wArgs2.length) ∧
    (∀ i (hi : i < wRunOut.2.length), ∃ m : Message,
      messageTryFromSlice (wRunOut.2.get ⟨i, hi⟩).data = some m ∧ m.index = i) :=
  chat_message_count_after_sends wFpa wRent wPid 0 wSenderA wChatPdaAcc wKeyA
    wArgs2 wRunOut (by decide) (by decide) (by decide)
